import Mathlib

/-!
Shallow embedding of the SDMMC-from-SPI decoder (`sdmmc_from_spi.py`).

The Python module is a byte-at-a-time protocol state machine.  We embed it
as follows:

* Timestamps (`GraphTime` values) become exact rationals `ℚ`;
  `GraphTimeDelta` arithmetic becomes ordinary `ℚ` arithmetic.
* The mutable `SdioState` object becomes an explicit record threaded through
  `addByteInt` (the integer-value body of `SdioState.add_byte`).
* Python lists of booleans become `List Bool`; `self.command_bits` can be a
  list or `None` in Python, so it is modelled as `Option (List Bool)`,
  with Python truthiness captured by `truthy` below.
* Fallible code paths (Python `assert` failures and `IndexError` from the
  `while new_bits[0]` loop) are modelled by returning `none` from an
  `Option`-valued function.
* `print` calls are side effects invisible to callers and are dropped.
-/

/-- Python truthiness of `self.command_bits` (`None` and `[]` are falsy). -/
def truthy : Option (List Bool) → Bool
  | none => false
  | some [] => false
  | some (_ :: _) => true

/-- The `CURRENT_STATE` dictionary (state code to state name). -/
def CURRENT_STATE : List (ℕ × String) :=
  [(0, "IDLE"), (1, "READY"), (2, "IDENTIFICATION"), (3, "STANDBY"),
   (4, "TRANSFER"), (5, "DATA"), (6, "RECEIVE"), (7, "PROGRAMMING"),
   (8, "DISCONNECT"), (9, "BUS TEST"), (10, "SLEEP")]

/-- The `COMMAND_INFO` dictionary: command value to (name, response kind). -/
def COMMAND_INFO : List (ℕ × String × Option ℕ) :=
  [(0, ("GO_IDLE_STATE", none)),
   (1, ("SEND_OP_COND", some 3)),
   (2, ("ALL_SEND_CID", some 2)),
   (3, ("SET_RELATIVE_ADDR", some 1)),
   (4, ("SET_DSR", none)),
   (5, ("SLEEP_AWAKE", some 1)),
   (6, ("SWITCH", some 1)),
   (7, ("SELECT_CARD", some 1)),
   (8, ("SEND_EXT_CSD", some 1)),
   (9, ("SEND_CSD", some 2)),
   (10, ("SEND_CID", some 2)),
   (11, ("obsolete", none)),
   (12, ("STOP_TRANSMISSION", some 1)),
   (13, ("SEND_STATUS", some 1)),
   (14, ("BUSTEST_R", some 1)),
   (15, ("GO_INACTIVE_STATE", none)),
   (19, ("BUSTEST_W", some 1)),
   (16, ("SET_BLOCKLEN", some 1)),
   (17, ("READ_SINGLE_BLOCK", some 1)),
   (18, ("READ_MULTIPLE_BLOCK", some 1)),
   (21, ("SEND_TUNING_BLOCK", some 1)),
   (20, ("obsolete", none)),
   (22, ("reserved", none)),
   (23, ("SET_BLOCK_COUNT", some 1)),
   (24, ("WRITE_BLOCK", some 1)),
   (25, ("WRITE_MULTIPLE_BLOCK", some 1)),
   (26, ("PROGRAM_CID", some 1)),
   (27, ("PROGRAM_CSD", some 1)),
   (49, ("SET_TIME", some 1)),
   (28, ("SET_WRITE_PROT", some 1)),
   (29, ("CLR_WRITE_PROT", some 1)),
   (30, ("SEND_WRITE_PROT", some 1)),
   (31, ("SEND_WRITE_PROT_TYPE", some 1)),
   (35, ("ERASE_GROUP_START", some 1)),
   (36, ("ERASE_GROUP_END", some 1)),
   (38, ("ERASE", some 1)),
   (39, ("FAST_IO", some 4)),
   (40, ("GO_IRQ_STATE", some 5)),
   (42, ("LOCK_UNLOCK", some 1)),
   (55, ("APP_CMD", some 1)),
   (56, ("GEN_CMD", some 1)),
   (52, ("IO_RW_DIRECT", some 5)),
   (53, ("IO_RW_EXTENDED", some 5)),
   (54, ("PROTOCOL_WR", some 1)),
   (44, ("QUEUED_TASK_PARAMS", some 1)),
   (45, ("QUEUED_TASK_ADDRESS", some 1)),
   (46, ("EXECUTE_READ_TASK", some 1)),
   (47, ("EXECUTE_WRITE_TASK", some 1)),
   (48, ("CMDQ_TASK_MGMT", some 1))]

/-- `get_response_length(resp)`: 136 for a kind-2 response, else 48. -/
def get_response_length (resp : Option ℕ) : ℕ :=
  if resp = some 2 then 136 else 48

/-- `get_command_name(cmd)`: name from the table, or `"unknown"`. -/
def get_command_name (cmd : ℕ) : String :=
  match COMMAND_INFO.lookup cmd with
  | some p => p.1
  | none => "unknown"

/-- `get_command_response(cmd)`: response kind from the table, or `None`. -/
def get_command_response (cmd : ℕ) : Option ℕ :=
  match COMMAND_INFO.lookup cmd with
  | some p => p.2
  | none => none

/-- `bits_from_byte(value)`: the 8 bits of the byte, MSB first. -/
def bits_from_byte (value : ℕ) : List Bool :=
  [128, 64, 32, 16, 8, 4, 2, 1].map (fun bit => (value &&& bit) != 0)

/-- `value_from_bits(bits)`: big-endian accumulation `value = value*2 + bit`. -/
def value_from_bits (bits : List Bool) : ℕ :=
  bits.foldl (fun value x => if x then value * 2 + 1 else value * 2) 0

/-- Python `"%x" % n`: lowercase hexadecimal rendering. -/
def toHex (n : ℕ) : String :=
  String.mk (Nat.toDigits 16 n)

/-- The decoder state (`SdioState.__init__`), with the same field names. -/
structure SdioState where
  command_bits : Option (List Bool)
  command_start : Option ℚ
  debug : Option (ℚ × ℚ)
  first_time : Option ℚ
  expected_response : Option ℕ
  expected_response_length : ℕ
  cdm53_block_size_length : ℕ
  cdm53_skip_next_bytes : ℕ
  cmd53_blocks_pending : ℤ
  cmd53_start_token_received : ℕ
  cmd53_data_start : Option ℚ
  cmd53_blocks_received : ℕ
deriving DecidableEq, Repr

/-- The freshly constructed state. -/
def SdioState.init : SdioState :=
  { command_bits := some []
    command_start := none
    debug := none
    first_time := none
    expected_response := none
    expected_response_length := 48
    cdm53_block_size_length := 256
    cdm53_skip_next_bytes := 0
    cmd53_blocks_pending := 0
    cmd53_start_token_received := 0
    cmd53_data_start := none
    cmd53_blocks_received := 0 }

/-- The dict returned by `add_byte` (`start_time` may be a Python `None`). -/
structure Frame where
  start_time : Option ℚ
  end_time : ℚ
  info : String
deriving DecidableEq, Repr

/-- `interpret_command(self, bits)`: description of a 48-bit command frame,
together with the updated state (CMD53 mutates the skip counters).
Returns `none` when the Python `assert len(bits) == 48` would fail. -/
def interpret_command (self : SdioState) (bits : List Bool) :
    Option (SdioState × String) :=
  if bits.length = 48 then
    let start_bit := bits.getD 0 false
    let transmission_bit := bits.getD 1 false
    let command_index := value_from_bits ((bits.drop 2).take 6)
    let argument := value_from_bits ((bits.drop 8).take 32)
    let end_bit := value_from_bits ((bits.drop 47).take 1)
    let okay : Bool := !(start_bit || !transmission_bit || end_bit == 0)
    let info :=
      if (COMMAND_INFO.lookup command_index).isSome then
        get_command_name command_index ++ " (CMD" ++ toString command_index ++ ")"
      else
        "CMD" ++ toString command_index
    let (self, info) :=
      if command_index = 52 then
        let rw_flag := bits.getD 8 false
        let function := value_from_bits ((bits.drop 9).take 3)
        let reg_address := value_from_bits ((bits.drop 14).take 17)
        let info :=
          if rw_flag then
            info ++ ": Write: " ++ toString (value_from_bits ((bits.drop 32).take 8))
          else
            info ++ ": Read"
        let info := info ++ " Func" ++ toString function
        let info := info ++ ", Address 0x" ++ toHex reg_address
        (self, info)
      else if command_index = 53 then
        let rw_flag := bits.getD 8 false
        let function := value_from_bits ((bits.drop 9).take 3)
        let block_mode := bits.getD 12 false
        let op_code := bits.getD 13 false
        let reg_address := value_from_bits ((bits.drop 14).take 17)
        let byte_block_cnt := value_from_bits ((bits.drop 31).take 9)
        let info := if rw_flag then info ++ ": Write" else info ++ ": Read"
        let info := info ++ " Func" ++ toString function
        let info :=
          if op_code then info ++ ", Inc Address 0x" ++ toHex reg_address
          else info ++ ", Fix Address 0x" ++ toHex reg_address
        if block_mode then
          let info := info ++ ", BlockMode:" ++ " " ++ toString byte_block_cnt ++ " blocks"
          ({ self with
              cdm53_skip_next_bytes := self.cdm53_block_size_length + 2
              cmd53_blocks_pending := (byte_block_cnt : ℤ)
              cmd53_blocks_received := 0 }, info)
        else
          let info := info ++ ", ByteMode:" ++ " " ++ toString byte_block_cnt ++ " bytes"
          ({ self with
              cdm53_skip_next_bytes := byte_block_cnt + 2
              cmd53_blocks_pending := 1
              cmd53_blocks_received := 0 }, info)
      else
        (self, info ++ ", arg:" ++ toString argument)
    let info := if !okay then info ++ ", ERROR" else info
    some (self, info)
  else
    none

/-- `interpret_response1(bits)`: description of a 48-bit kind-1 (status)
response.  The Python `okay` flag is computed but never rendered, so it is
omitted.  Returns `none` when `assert len(bits) == 48` would fail. -/
def interpret_response1 (bits : List Bool) : Option String :=
  if bits.length = 48 then
    let device_status := (bits.drop 8).take 32
    let current_state := value_from_bits ((device_status.drop 19).take 4)
    let info := "R1, " ++
      (match CURRENT_STATE.lookup current_state with
       | some nm => nm
       | none => "UNKNOWN (" ++ toString current_state ++ ")")
    let info := if device_status.getD 0 false then info ++ " ADDRESS_OUT_OF_RANGE" else info
    let info := if device_status.getD 1 false then info ++ " ADDRESS_MISALIGN" else info
    let info := if device_status.getD 2 false then info ++ " BLOCK_LEN_ERROR" else info
    let info := if device_status.getD 3 false then info ++ " ERASE_EQ_ERROR" else info
    let info := if device_status.getD 4 false then info ++ " ERASE_PARAM" else info
    let info := if device_status.getD 5 false then info ++ " WP_VIOLATION" else info
    let info := if device_status.getD 6 false then info ++ " DEVICE_IS_LOCKED" else info
    let info := if device_status.getD 7 false then info ++ " LOCK_UNLOCK_FAILED" else info
    let info := if device_status.getD 8 false then info ++ " COM_CRC_ERROR" else info
    let info := if device_status.getD 9 false then info ++ " ILLEGAL_COMMAND" else info
    let info := if device_status.getD 10 false then info ++ " DEVICE_ECC_FAILED" else info
    let info := if device_status.getD 11 false then info ++ " CC_ERROR" else info
    let info := if device_status.getD 12 false then info ++ " ERROR" else info
    some info
  else
    none

/-- `interpret_response2(bits)`: constant text (the rest of the Python body
is dead code after an unconditional `return`).  Returns `none` when
`assert len(bits) == 136` would fail. -/
def interpret_response2 (bits : List Bool) : Option String :=
  if bits.length = 136 then some "R2, CID or CSD" else none

/-- `interpret_response3(bits)`: OCR busy bit (no length assertion). -/
def interpret_response3 (bits : List Bool) : String :=
  let ocr_register := (bits.drop 8).take 32
  "R3, " ++ (if ocr_register.getD 0 false then "READY" else "BUSY")

/-- `interpret_response5(bits)`: placeholder text. -/
def interpret_response5 (_bits : List Bool) : String :=
  "R5"

/-- Lines 343-392 of `add_byte`: the CMD53 payload interception branch
(entered when `cdm53_skip_next_bytes > 0`; always returns). -/
def cmd53Step (self : SdioState) (value : ℕ) (end_time : ℚ) :
    SdioState × Option Frame :=
  if self.cmd53_start_token_received = 0 then
    if value = 252 ∨ value = 253 then
      ({ self with cmd53_start_token_received := 1, cmd53_data_start := some end_time },
       none)
    else
      (self, none)
  else if 1 < self.cdm53_skip_next_bytes then
    ({ self with cdm53_skip_next_bytes := self.cdm53_skip_next_bytes - 1 }, none)
  else
    let pending := self.cmd53_blocks_pending - 1
    let received := self.cmd53_blocks_received + 1
    let info := "DATA BLOCK " ++ toString received
    if pending = 0 then
      ({ self with
          cdm53_skip_next_bytes := 0
          cmd53_start_token_received := 0
          cmd53_blocks_pending := pending
          cmd53_blocks_received := received },
       some ⟨self.cmd53_data_start, end_time, info⟩)
    else
      ({ self with
          cdm53_skip_next_bytes := self.cdm53_block_size_length + 2
          cmd53_start_token_received := 0
          cmd53_blocks_pending := pending
          cmd53_blocks_received := received },
       some ⟨self.cmd53_data_start, end_time, info⟩)

/-- Lines 409-416 of `add_byte`: start of a new command; strip the leading
run of one-bits.  When every bit is one the Python `while new_bits[0]` loop
empties the list and raises `IndexError`, modelled as `none`. -/
def startNewCommand (self : SdioState) (new_bits : List Bool)
    (start_time bit_length : ℚ) : Option (SdioState × Option Frame) :=
  if new_bits.all (fun x => x) then
    none
  else
    let count := (new_bits.takeWhile (fun x => x)).length
    let new_bits := new_bits.dropWhile (fun x => x)
    some ({ self with
             command_start := some (start_time + (count : ℚ) * bit_length)
             command_bits := some new_bits }, none)

/-- Lines 457-478 of `add_byte`: slice the consumed frame off the window,
strip the remainder and emit the decoded frame. -/
def finishWindow (self : SdioState) (command_bits : List Bool) (L : ℕ)
    (command_start : Option ℚ) (command_end : ℚ) (end_time bit_length : ℚ)
    (info : String) : SdioState × Option Frame :=
  let rest := command_bits.drop L
  let self :=
    if rest.all (fun x => x) then
      { self with command_bits := none }
    else
      let rest := rest.dropWhile (fun x => x)
      { self with
          command_bits := some rest
          command_start := some (end_time - bit_length * ((rest.length : ℚ) - 0.5)) }
  (self, some ⟨command_start, command_end, info⟩)

/-- Lines 422-478 of `add_byte`: a full frame is buffered; decode it.
`none` models an `assert` failure inside an interpreter (the reachable case
is `interpret_command` fed a 136-bit window). -/
def decodeWindow (self : SdioState) (command_bits : List Bool)
    (end_time bit_length : ℚ) : Option (SdioState × Option Frame) :=
  let this_response_length := self.expected_response_length
  let this_response_type := self.expected_response
  let command_start := self.command_start
  let command_end :=
    end_time - bit_length * ((command_bits.length : ℚ) - (this_response_length : ℚ))
  let bits := command_bits.take this_response_length
  let transmission_bit := bits.getD 1 false
  if transmission_bit then
    match interpret_command self bits with
    | none => none
    | some (self, info) =>
      let command_index := value_from_bits ((bits.drop 2).take 6)
      let resp := get_command_response command_index
      let self :=
        { self with
            expected_response := resp
            expected_response_length := get_response_length resp }
      some (finishWindow self command_bits this_response_length command_start
              command_end end_time bit_length info)
  else
    let decoded : Option String :=
      if this_response_type = some 1 ∨ this_response_type = none then
        interpret_response1 bits
      else if this_response_type = some 2 then
        interpret_response2 bits
      else if this_response_type = some 3 then
        some (interpret_response3 bits)
      else if this_response_type = some 5 then
        some (interpret_response5 bits)
      else
        some ("R" ++ (match this_response_type with
                      | some k => toString k
                      | none => "None"))
    match decoded with
    | none => none
    | some info =>
      let self :=
        { self with expected_response := none, expected_response_length := 48 }
      some (finishWindow self command_bits this_response_length command_start
              command_end end_time bit_length info)

/-- Lines 397-402 of `add_byte`: record `first_time` on the first processed
byte and refresh the `debug` text (modelled as the raw timestamp pair). -/
def markTimes (self : SdioState) (start_time end_time : ℚ) : SdioState :=
  { self with
      first_time := if self.first_time.isNone then some start_time else self.first_time
      debug := some (start_time, end_time) }

/-- `SdioState.add_byte(self, value, start_time, end_time)` for an integer
`value` (the body after the `bytes` conversion).  `none` models a Python
exception (assertion failure or `IndexError`). -/
def addByteInt (self : SdioState) (value : ℕ) (start_time end_time : ℚ) :
    Option (SdioState × Option Frame) :=
  if 0 < self.cdm53_skip_next_bytes then
    some (cmd53Step self value end_time)
  else if value = 255 ∧ truthy self.command_bits = false then
    some (self, none)
  else
    let self := markTimes self start_time end_time
    let new_bits := bits_from_byte value
    let bit_length : ℚ := (end_time - start_time) / 7.5
    if truthy self.command_bits = false then
      startNewCommand self new_bits start_time bit_length
    else
      let command_bits := self.command_bits.getD [] ++ new_bits
      if command_bits.length < self.expected_response_length then
        some ({ self with command_bits := some command_bits }, none)
      else
        decodeWindow { self with command_bits := some command_bits }
          command_bits end_time bit_length

/-- The value passed to `add_byte` may be a Python `int` or `bytes`. -/
inductive PyVal where
  | int : ℕ → PyVal
  | bytes : List ℕ → PyVal
deriving DecidableEq, Repr

/-- `SdioState.add_byte` including the `bytes` unwrapping at its top:
a `bytes` value must have length exactly 1 (otherwise the `assert` fails,
modelled as `none`) and is replaced by its single element. -/
def add_byte (self : SdioState) (value : PyVal) (start_time end_time : ℚ) :
    Option (SdioState × Option Frame) :=
  match value with
  | .int n => addByteInt self n start_time end_time
  | .bytes l =>
    if l.length = 1 then addByteInt self (l.getD 0 0) start_time end_time
    else none

/-- Feed a list of `(value, start_time, end_time)` transport bytes through
the decoder, collecting the per-byte results; `none` as soon as any call
raises. -/
def runBytes (self : SdioState) :
    List (ℕ × ℚ × ℚ) → Option (SdioState × List (Option Frame))
  | [] => some (self, [])
  | (v, t1, t2) :: rest =>
    match addByteInt self v t1 t2 with
    | none => none
    | some (s1, f) =>
      match runBytes s1 rest with
      | none => none
      | some (s2, outs) => some (s2, f :: outs)

/-- Helper for tests: byte `i` of the stream spans `[i, i+1]`. -/
def mkBytes (l : List ℕ) : List (ℕ × ℚ × ℚ) :=
  l.enum.map (fun p => (p.2, (p.1 : ℚ), (p.1 : ℚ) + 1))

/-- Substring containment, phrased on the character lists. -/
def containsStr (pat s : String) : Prop :=
  pat.data <:+: s.data

instance (pat s : String) : Decidable (containsStr pat s) :=
  inferInstanceAs (Decidable (pat.data <:+: s.data))

/-- Containment is preserved by prepending text. -/
theorem containsStr_append_left (pat a b : String) (h : containsStr pat b) :
    containsStr pat (a ++ b) := by
  obtain ⟨s, t, hs⟩ := h
  exact ⟨a.data ++ s, t, by simp [String.data_append, ← hs, List.append_assoc]⟩

set_option maxRecDepth 8000 in
/-- C5: for every byte value, decomposing into 8 MSB-first bits and
re-accumulating big-endian is the identity:
`value_from_bits(bits_from_byte(x)) == x` for all `x` in `0..255`. -/
theorem c5_value_bits_roundtrip :
    ∀ x : ℕ, x ≤ 255 → value_from_bits (bits_from_byte x) = x := by decide

theorem c5_value_bits_roundtrip_witness :
    200 ≤ 255 ∧ value_from_bits (bits_from_byte 200) = 200 :=
  ⟨by decide, c5_value_bits_roundtrip 200 (by decide)⟩

/-- C10: `add_byte` called with a `bytes` value of length 1 behaves exactly
as the call with the single byte's integer value, and a `bytes` value of any
other length fails the assertion (modelled as `none`). -/
theorem c10_bytes_unwrap :
    ∀ (s : SdioState) (t1 t2 : ℚ) (n : ℕ),
      add_byte s (PyVal.bytes [n]) t1 t2 = add_byte s (PyVal.int n) t1 t2 ∧
      ∀ l : List ℕ, l.length ≠ 1 → add_byte s (PyVal.bytes l) t1 t2 = none := by
  intro s t1 t2 n
  refine ⟨by simp [add_byte], ?_⟩
  intro l hl
  simp [add_byte, hl]

theorem c10_bytes_unwrap_witness :
    ([] : List ℕ).length ≠ 1 ∧ add_byte SdioState.init (PyVal.bytes []) 0 1 = none :=
  ⟨by decide, (c10_bytes_unwrap SdioState.init 0 1 0).2 [] (by decide)⟩

/-- A well-framed 48-bit status response except that its transmission bit
is set: `interpret_response1` renders it without any `"ERROR"` text. -/
def c2bits : List Bool := [false, true] ++ List.replicate 45 false ++ [true]

/-- C2 counterexample: a 48-bit frame with `transmission_bit != 0` decoded
as a kind-1 response yields `"R1, IDLE"`, which does not contain `"ERROR"`:
`interpret_response1` computes its framing check but never renders it. -/
theorem c2_counterexample :
    c2bits.length = 48 ∧ c2bits.getD 1 false = true ∧
    interpret_response1 c2bits = some "R1, IDLE" ∧
    ¬ containsStr "ERROR" "R1, IDLE" :=
  ⟨by decide, by decide, by decide, by decide⟩

/-- C2 (amended): a command frame whose `start_bit` is not 0 always yields a
description containing `"ERROR"`; a response frame's framing bits do not
influence the rendered description at all (`interpret_response1` depends
only on the 32-bit status field), so a response with `transmission_bit != 0`
need not contain `"ERROR"`. -/
theorem c2_bad_framing_error :
    (∀ (s : SdioState) (bits : List Bool), bits.length = 48 →
       bits.getD 0 false = true →
       ∃ s2 info, interpret_command s bits = some (s2, info) ∧
         containsStr "ERROR" info) ∧
    (∀ bits bits2 : List Bool, bits.length = 48 → bits2.length = 48 →
       (bits.drop 8).take 32 = (bits2.drop 8).take 32 →
       interpret_response1 bits = interpret_response1 bits2) := by
  constructor
  · intro s bits hlen hstart
    unfold interpret_command
    rw [if_pos hlen, hstart]
    simp only [Bool.true_or, Bool.not_true]
    refine ⟨_, _, rfl, ?_⟩
    exact containsStr_append_left "ERROR" _ ", ERROR" (by decide)
  · intro bits bits2 h1 h2 hds
    unfold interpret_response1
    rw [if_pos h1, if_pos h2, hds]

/-- The 13 device-status flag names in their fixed rendering order. -/
def c8flags : String :=
  "ADDRESS_OUT_OF_RANGE ADDRESS_MISALIGN BLOCK_LEN_ERROR ERASE_EQ_ERROR ERASE_PARAM WP_VIOLATION DEVICE_IS_LOCKED LOCK_UNLOCK_FAILED COM_CRC_ERROR ILLEGAL_COMMAND DEVICE_ECC_FAILED CC_ERROR ERROR"

/-- C8: a 48-bit kind-1 response whose 13 device-status flag bits (bits 0
through 12 of the 32-bit status field) are all set renders all 13 flag names
in their fixed order, space-separated. -/
theorem c8_all_flags (bits : List Bool) (h : bits.length = 48)
    (hf : ∀ i, i < 13 → ((bits.drop 8).take 32).getD i false = true) :
    ∃ info, interpret_response1 bits = some info ∧ containsStr c8flags info := by
  have h0 := hf 0 (by norm_num)
  have h1 := hf 1 (by norm_num)
  have h2 := hf 2 (by norm_num)
  have h3 := hf 3 (by norm_num)
  have h4 := hf 4 (by norm_num)
  have h5 := hf 5 (by norm_num)
  have h6 := hf 6 (by norm_num)
  have h7 := hf 7 (by norm_num)
  have h8 := hf 8 (by norm_num)
  have h9 := hf 9 (by norm_num)
  have h10 := hf 10 (by norm_num)
  have h11 := hf 11 (by norm_num)
  have h12 := hf 12 (by norm_num)
  unfold interpret_response1
  rw [if_pos h]
  simp only [h0, h1, h2, h3, h4, h5, h6, h7, h8, h9, h10, h11, h12, if_true]
  refine ⟨_, rfl, ?_⟩
  simp only [String.append_assoc]
  exact containsStr_append_left _ _ _ (containsStr_append_left _ _ _ (by decide))

/-- Concrete input for the C8 witness: 8 lead bits clear, flag bits set. -/
def c8bits : List Bool :=
  List.replicate 8 false ++ List.replicate 13 true ++ List.replicate 27 false

theorem c8_all_flags_witness :
    c8bits.length = 48 ∧
    (∀ i, i < 13 → ((c8bits.drop 8).take 32).getD i false = true) ∧
    ∃ info, interpret_response1 c8bits = some info ∧ containsStr c8flags info :=
  ⟨by decide, by decide, c8_all_flags c8bits (by decide) (by decide)⟩

/-- Byte stream reaching a state in the middle of a CMD53 byte-mode payload:
a CMD53 byte-mode command with count 0 (skip counter 2), the `0xFC` start
token, then one payload byte, leaving the skip counter at 1 with the start
token seen and the bit window empty. -/
def c3bytes : List (ℕ × ℚ × ℚ) := mkBytes [0x75, 0, 0, 0, 0, 0x01, 0xFC, 0x00]

/-- The decoder state after `c3bytes`. -/
def c3state : SdioState :=
  ((runBytes SdioState.init c3bytes).getD (SdioState.init, [])).1

set_option maxRecDepth 16000 in
/-- C3 counterexample: in the reachable state after `c3bytes` no
command/response bits are buffered, yet `add_byte(255, ...)` neither leaves
the state unchanged (the skip counter drops from 1 to 0) nor returns `None`
— the `0xFF` byte is consumed as the final CMD53 payload byte and emits a
`DATA BLOCK` frame. -/
theorem c3_counterexample :
    (runBytes SdioState.init c3bytes).isSome = true ∧
    truthy c3state.command_bits = false ∧
    c3state.cdm53_skip_next_bytes = 1 ∧
    (addByteInt c3state 255 8 9).map
        (fun p => (p.1.cdm53_skip_next_bytes, Option.map Frame.info p.2)) =
      some (0, some "DATA BLOCK 1") :=
  ⟨by decide, by decide, by decide, by decide⟩

/-- C3 (amended): a `0xFF` byte arriving while no command/response bits are
buffered returns `None` and leaves every field of the state unchanged,
provided additionally that no CMD53 payload is being skipped (the skip
counter is 0, or the block start token has not been seen yet). -/
theorem c3_idle_absorbed (s : SdioState) (t1 t2 : ℚ)
    (h : s.cdm53_skip_next_bytes = 0 ∨ s.cmd53_start_token_received = 0)
    (hw : truthy s.command_bits = false) :
    addByteInt s 255 t1 t2 = some (s, none) := by
  rcases h with h | h
  · simp [addByteInt, h, hw]
  · rcases Nat.eq_zero_or_pos s.cdm53_skip_next_bytes with h2 | h2
    · simp [addByteInt, h2, hw]
    · simp [addByteInt, h2, cmd53Step, h]

theorem c3_idle_absorbed_witness :
    (SdioState.init.cdm53_skip_next_bytes = 0 ∨
      SdioState.init.cmd53_start_token_received = 0) ∧
    truthy SdioState.init.command_bits = false ∧
    addByteInt SdioState.init 255 0 1 = some (SdioState.init, none) :=
  ⟨Or.inl (by decide), by decide,
   c3_idle_absorbed SdioState.init 0 1 (Or.inl (by decide)) (by decide)⟩

/-- `markTimes` only touches `first_time` and `debug`. -/
theorem markTimes_command_bits (s : SdioState) (t1 t2 : ℚ) :
    (markTimes s t1 t2).command_bits = s.command_bits := rfl

theorem markTimes_expected_response (s : SdioState) (t1 t2 : ℚ) :
    (markTimes s t1 t2).expected_response = s.expected_response := rfl

theorem markTimes_expected_response_length (s : SdioState) (t1 t2 : ℚ) :
    (markTimes s t1 t2).expected_response_length = s.expected_response_length := rfl

set_option maxRecDepth 8000 in
/-- Every byte value below 255 has at least one zero bit. -/
theorem bits_from_byte_not_all_ones :
    ∀ v : ℕ, v ≤ 255 → v ≠ 255 → (bits_from_byte v).all (fun x => x) = false := by
  decide

/-- `decodeWindow` cannot raise while a 48-bit frame is expected and no
kind-2 response is pending. -/
theorem decodeWindow_total (s : SdioState) (w : List Bool) (t2 bl : ℚ)
    (h48 : s.expected_response_length = 48) (hn2 : s.expected_response ≠ some 2)
    (hw : 48 ≤ w.length) : decodeWindow s w t2 bl ≠ none := by
  have hbits : (w.take s.expected_response_length).length = 48 := by
    rw [h48]
    simp [List.length_take, Nat.min_eq_left hw]
  unfold decodeWindow
  dsimp only
  split
  · obtain ⟨p, hp⟩ : ∃ p, interpret_command s (w.take s.expected_response_length) = some p := by
      unfold interpret_command
      rw [if_pos hbits]
      exact ⟨_, rfl⟩
    rw [hp]
    simp
  · rcases hresp : s.expected_response with _ | k
    · obtain ⟨info, hi⟩ :
          ∃ info, interpret_response1 (w.take s.expected_response_length) = some info := by
        unfold interpret_response1
        rw [if_pos hbits]
        exact ⟨_, rfl⟩
      simp [hresp, hi]
    · by_cases hk1 : k = 1
      · obtain ⟨info, hi⟩ :
            ∃ info, interpret_response1 (w.take s.expected_response_length) = some info := by
          unfold interpret_response1
          rw [if_pos hbits]
          exact ⟨_, rfl⟩
        simp [hresp, hk1, hi]
      · have hk2 : k ≠ 2 := by
          intro hh
          exact hn2 (by rw [hresp, hh])
        by_cases hk3 : k = 3
        · simp [hresp, hk1, hk3]
        · by_cases hk5 : k = 5
          · simp [hresp, hk1, hk3, hk5]
          · simp [hresp, hk1, hk2, hk3, hk5]

/-- Bytes reaching the one reachable fatal path: CMD9 (`SEND_CSD`) makes the
decoder expect a 136-bit response, after which a 136-bit window whose
transmission bit is set is handed to `interpret_command`, whose
`assert len(bits) == 48` fails. -/
def c6bytes : List (ℕ × ℚ × ℚ) :=
  mkBytes ([0x49, 0, 0, 0, 0, 0x01] ++ [0x40] ++ List.replicate 16 0)

set_option maxRecDepth 200000 in
/-- C6 counterexample: `add_byte` is not total — the byte stream `c6bytes`
(all values in `0..255`, well-ordered timestamps) makes the decoder raise an
`AssertionError` (modelled as `none`). -/
theorem c6_counterexample : runBytes SdioState.init c6bytes = none := by decide

/-- C6 (amended): `add_byte` never fails while the expected frame length is
48 bits (which excludes only the await-kind-2-response state); in particular
both leading-ones-stripping loops never index an empty list (a fresh window
always retains a zero bit because `0xFF` is filtered out, and a post-frame
remainder is stripped only when not all ones).  The decoder can fail only
when a 136-bit window is dispatched to the command interpreter. -/
theorem c6_no_fatal_error :
    (∀ (s : SdioState) (v : ℕ) (t1 t2 : ℚ), v ≤ 255 →
       s.expected_response_length = 48 → s.expected_response ≠ some 2 →
       addByteInt s v t1 t2 ≠ none) ∧
    (∀ v : ℕ, v ≤ 255 → v ≠ 255 →
       (bits_from_byte v).dropWhile (fun x => x) ≠ []) ∧
    (∀ l : List Bool, l.all (fun x => x) = false →
       l.dropWhile (fun x => x) ≠ []) := by
  have hdrop : ∀ l : List Bool, l.all (fun x => x) = false →
      l.dropWhile (fun x => x) ≠ [] := by
    intro l hl
    induction l with
    | nil => simp at hl
    | cons b t ih =>
      cases b
      · simp [List.dropWhile]
      · simp only [List.all_cons, Bool.true_and] at hl
        simpa [List.dropWhile] using ih hl
  refine ⟨?_, fun v hv hv255 => hdrop _ (bits_from_byte_not_all_ones v hv hv255), hdrop⟩
  · intro s v t1 t2 hv h48 hn2
    unfold addByteInt
    split
    · simp
    · split
      · simp
      · rename_i hskip hidle
        simp only []
        split
        · rename_i hwin
          unfold startNewCommand
          split
          · rename_i hall
            exfalso
            rw [markTimes_command_bits] at hwin
            have hv255 : v ≠ 255 := by
              intro hh
              exact hidle ⟨hh, hwin⟩
            rw [bits_from_byte_not_all_ones v hv hv255] at hall
            cases hall
          · simp
        · split
          · simp
          · rename_i hwin hlen
            apply decodeWindow_total
            · rw [markTimes_expected_response_length, h48]
            · rw [markTimes_expected_response]
              exact hn2
            · rw [markTimes_expected_response_length, h48] at hlen
              omega

theorem c6_no_fatal_error_witness :
    ((0 : ℕ) ≤ 255 ∧ SdioState.init.expected_response_length = 48 ∧
      SdioState.init.expected_response ≠ some 2 ∧
      addByteInt SdioState.init 0 0 1 ≠ none) ∧
    ((7 : ℕ) ≤ 255 ∧ (7 : ℕ) ≠ 255 ∧
      (bits_from_byte 7).dropWhile (fun x => x) ≠ []) ∧
    (([true, false] : List Bool).all (fun x => x) = false ∧
      ([true, false] : List Bool).dropWhile (fun x => x) ≠ []) :=
  ⟨⟨by decide, by decide, by decide,
    c6_no_fatal_error.1 SdioState.init 0 0 1 (by decide) (by decide) (by decide)⟩,
   ⟨by decide, by decide, c6_no_fatal_error.2.1 7 (by decide) (by decide)⟩,
   ⟨by decide, c6_no_fatal_error.2.2 [true, false] (by decide)⟩⟩

/-- C4: one `add_byte` step during an active CMD53 transfer
(`cdm53_skip_next_bytes > 0`) never raises, changes `cmd53_blocks_pending`
only by leaving it alone or decrementing it by exactly 1, decrements it
exactly on the final byte of a block (start token already seen and skip
counter down to 1), and clears the transfer state (skip counter and
start-token flag, with no blocks pending) exactly when that decrement makes
`cmd53_blocks_pending` reach 0. -/
theorem c4_blocks_pending_step (s : SdioState) (v : ℕ) (t1 t2 : ℚ)
    (h : 0 < s.cdm53_skip_next_bytes) :
    ∃ s2 f, addByteInt s v t1 t2 = some (s2, f) ∧
      (s2.cmd53_blocks_pending = s.cmd53_blocks_pending ∨
        s2.cmd53_blocks_pending = s.cmd53_blocks_pending - 1) ∧
      (s2.cmd53_blocks_pending = s.cmd53_blocks_pending - 1 ↔
        (s.cmd53_start_token_received ≠ 0 ∧ s.cdm53_skip_next_bytes = 1)) ∧
      ((s2.cdm53_skip_next_bytes = 0 ∧ s2.cmd53_start_token_received = 0 ∧
          s2.cmd53_blocks_pending = 0) ↔
        (s2.cmd53_blocks_pending = s.cmd53_blocks_pending - 1 ∧
          s2.cmd53_blocks_pending = 0)) := by
  have h0 : addByteInt s v t1 t2 = some (cmd53Step s v t2) := by
    unfold addByteInt
    rw [if_pos h]
  by_cases htok : s.cmd53_start_token_received = 0
  · by_cases hv : v = 252 ∨ v = 253
    · have hc : cmd53Step s v t2 =
          ({ s with cmd53_start_token_received := 1, cmd53_data_start := some t2 },
           none) := by
        unfold cmd53Step
        rw [if_pos htok, if_pos hv]
      refine ⟨_, _, by rw [h0, hc], ?_, ?_, ?_⟩ <;> (dsimp only; omega)
    · have hc : cmd53Step s v t2 = (s, none) := by
        unfold cmd53Step
        rw [if_pos htok, if_neg hv]
      refine ⟨_, _, by rw [h0, hc], ?_, ?_, ?_⟩ <;> (dsimp only; omega)
  · by_cases hskip : 1 < s.cdm53_skip_next_bytes
    · have hc : cmd53Step s v t2 =
          ({ s with cdm53_skip_next_bytes := s.cdm53_skip_next_bytes - 1 }, none) := by
        unfold cmd53Step
        rw [if_neg htok, if_pos hskip]
      refine ⟨_, _, by rw [h0, hc], ?_, ?_, ?_⟩ <;> (dsimp only; omega)
    · by_cases hp : s.cmd53_blocks_pending - 1 = 0
      · have hc : cmd53Step s v t2 =
            ({ s with
                cdm53_skip_next_bytes := 0
                cmd53_start_token_received := 0
                cmd53_blocks_pending := s.cmd53_blocks_pending - 1
                cmd53_blocks_received := s.cmd53_blocks_received + 1 },
             some ⟨s.cmd53_data_start, t2,
               "DATA BLOCK " ++ toString (s.cmd53_blocks_received + 1)⟩) := by
          unfold cmd53Step
          rw [if_neg htok]
          dsimp only
          rw [if_neg hskip, if_pos hp]
        refine ⟨_, _, by rw [h0, hc], ?_, ?_, ?_⟩ <;> (dsimp only; omega)
      · have hc : cmd53Step s v t2 =
            ({ s with
                cdm53_skip_next_bytes := s.cdm53_block_size_length + 2
                cmd53_start_token_received := 0
                cmd53_blocks_pending := s.cmd53_blocks_pending - 1
                cmd53_blocks_received := s.cmd53_blocks_received + 1 },
             some ⟨s.cmd53_data_start, t2,
               "DATA BLOCK " ++ toString (s.cmd53_blocks_received + 1)⟩) := by
          unfold cmd53Step
          rw [if_neg htok]
          dsimp only
          rw [if_neg hskip, if_neg hp]
        refine ⟨_, _, by rw [h0, hc], ?_, ?_, ?_⟩ <;> (dsimp only; omega)

/-- State used in the C4 witness: mid-transfer with the token not yet seen. -/
def c4state : SdioState :=
  { SdioState.init with cdm53_skip_next_bytes := 5 }

theorem c4_blocks_pending_step_witness :
    0 < c4state.cdm53_skip_next_bytes ∧
    ∃ s2 f, addByteInt c4state 0 0 1 = some (s2, f) ∧
      (s2.cmd53_blocks_pending = c4state.cmd53_blocks_pending ∨
        s2.cmd53_blocks_pending = c4state.cmd53_blocks_pending - 1) ∧
      (s2.cmd53_blocks_pending = c4state.cmd53_blocks_pending - 1 ↔
        (c4state.cmd53_start_token_received ≠ 0 ∧ c4state.cdm53_skip_next_bytes = 1)) ∧
      ((s2.cdm53_skip_next_bytes = 0 ∧ s2.cmd53_start_token_received = 0 ∧
          s2.cmd53_blocks_pending = 0) ↔
        (s2.cmd53_blocks_pending = c4state.cmd53_blocks_pending - 1 ∧
          s2.cmd53_blocks_pending = 0)) :=
  ⟨by decide, c4_blocks_pending_step c4state 0 0 1 (by decide)⟩

theorem markTimes_command_start (s : SdioState) (t1 t2 : ℚ) :
    (markTimes s t1 t2).command_start = s.command_start := rfl

theorem bits_from_byte_length (v : ℕ) : (bits_from_byte v).length = 8 := rfl

/-- When a nonempty window is buffered, no CMD53 skip is active and the
byte completes the expected frame length, `add_byte` reduces to
`decodeWindow` on the extended window. -/
theorem addByteInt_decode (s : SdioState) (v : ℕ) (t1 t2 : ℚ) (l : List Bool)
    (hskip : s.cdm53_skip_next_bytes = 0) (hl : s.command_bits = some l) (hne : l ≠ [])
    (hlen : s.expected_response_length ≤ l.length + 8) :
    addByteInt s v t1 t2 =
      decodeWindow { markTimes s t1 t2 with command_bits := some (l ++ bits_from_byte v) }
        (l ++ bits_from_byte v) t2 ((t2 - t1) / 7.5) := by
  have htr : truthy s.command_bits = true := by
    rw [hl]
    cases l with
    | nil => exact absurd rfl hne
    | cons a t => rfl
  unfold addByteInt
  rw [hskip, if_neg (lt_irrefl 0), if_neg (by simp [htr])]
  dsimp only
  rw [if_neg (by rw [markTimes_command_bits, htr]; simp)]
  rw [markTimes_command_bits, hl]
  dsimp only [Option.getD_some]
  rw [if_neg (by
    rw [markTimes_expected_response_length]
    rw [List.length_append, bits_from_byte_length]
    omega)]

/-- When a 48-bit frame is expected (and no kind-2 response is pending),
`decodeWindow` always succeeds and its result is `finishWindow` applied to
the captured `command_start` and the walked-back end time. -/
theorem decodeWindow_shape (s : SdioState) (w : List Bool) (t2 bl : ℚ)
    (h48 : s.expected_response_length = 48) (hn2 : s.expected_response ≠ some 2)
    (hw : 48 ≤ w.length) :
    ∃ s1 info, decodeWindow s w t2 bl =
      some (finishWindow s1 w 48 s.command_start
        (t2 - bl * ((w.length : ℚ) - 48)) t2 bl info) := by
  have hbits : (w.take s.expected_response_length).length = 48 := by
    rw [h48]
    simp [List.length_take, Nat.min_eq_left hw]
  unfold decodeWindow
  dsimp only
  rw [h48]
  simp only [Nat.cast_ofNat]
  rw [h48] at hbits
  split
  · obtain ⟨p, hp⟩ : ∃ p, interpret_command s (w.take 48) = some p := by
      unfold interpret_command
      rw [if_pos hbits]
      exact ⟨_, rfl⟩
    obtain ⟨s1, info⟩ := p
    rw [hp]
    exact ⟨_, _, rfl⟩
  · rcases hresp : s.expected_response with _ | k
    · obtain ⟨info, hi⟩ : ∃ info, interpret_response1 (w.take 48) = some info := by
        unfold interpret_response1
        rw [if_pos hbits]
        exact ⟨_, rfl⟩
      simp only [hresp, or_true, if_true, hi]
      exact ⟨_, _, rfl⟩
    · by_cases hk1 : k = 1
      · obtain ⟨info, hi⟩ : ∃ info, interpret_response1 (w.take 48) = some info := by
          unfold interpret_response1
          rw [if_pos hbits]
          exact ⟨_, rfl⟩
        simp only [hresp, hk1, if_true, hi, or_true, true_or, Option.some.injEq,
          reduceCtorEq, or_false]
        exact ⟨_, _, rfl⟩
      · rw [if_neg (show ¬((some k : Option ℕ) = some 1 ∨ (some k : Option ℕ) = none) from
          by simp [hk1])]
        by_cases hk3 : k = 3
        · rw [if_pos (show (some k : Option ℕ) = some 3 from by rw [hk3])]
          exact ⟨_, _, rfl⟩
        · rw [if_neg (show ¬((some k : Option ℕ) = some 3) from by simp [hk3])]
          by_cases hk5 : k = 5
          · rw [if_pos (show (some k : Option ℕ) = some 5 from by rw [hk5])]
            exact ⟨_, _, rfl⟩
          · rw [if_neg (show ¬((some k : Option ℕ) = some 5) from by simp [hk5])]
            exact ⟨_, _, rfl⟩

/-- `finishWindow` with a not-all-ones remainder: the remainder is stripped
of leading ones, kept as the next window, and the new `command_start` is
walked back from `end_time` by `(remaining_bits - 0.5)` bit durations. -/
theorem finishWindow_rem (s : SdioState) (w : List Bool) (L : ℕ) (cs : Option ℚ)
    (ce t2 bl : ℚ) (info : String)
    (hrem : ((w.drop L).all (fun x => x)) = false) :
    finishWindow s w L cs ce t2 bl info =
      ({ s with
          command_bits := some ((w.drop L).dropWhile (fun x => x))
          command_start :=
            some (t2 - bl * ((((w.drop L).dropWhile (fun x => x)).length : ℚ) - 0.5)) },
       some ⟨cs, ce, info⟩) := by
  unfold finishWindow
  dsimp only
  rw [hrem]
  simp

/-- C9: when a completed frame leaves a remainder that is not all ones, the
stripped remainder stays buffered as the next frame, whose start time is
`end_time - (remaining_bits - 0.5) * per_bit_duration` with
`per_bit_duration = (end_time - start_time) / 7.5`, and the emitted frame's
end time is `end_time - excess_bit_count * per_bit_duration`. -/
theorem c9_split_timing (s : SdioState) (v : ℕ) (t1 t2 : ℚ) (l : List Bool)
    (hskip : s.cdm53_skip_next_bytes = 0)
    (hl : s.command_bits = some l) (hne : l ≠ [])
    (h48 : s.expected_response_length = 48)
    (hn2 : s.expected_response ≠ some 2)
    (hlen : 48 ≤ l.length + 8)
    (hrem : ((l ++ bits_from_byte v).drop 48).all (fun x => x) = false) :
    ∃ s2 fr, addByteInt s v t1 t2 = some (s2, some fr) ∧
      s2.command_bits =
        some (((l ++ bits_from_byte v).drop 48).dropWhile (fun x => x)) ∧
      s2.command_start =
        some (t2 - (t2 - t1) / 7.5 *
          (((((l ++ bits_from_byte v).drop 48).dropWhile (fun x => x)).length : ℚ) - 0.5)) ∧
      fr.start_time = s.command_start ∧
      fr.end_time =
        t2 - (t2 - t1) / 7.5 * (((l ++ bits_from_byte v).length : ℚ) - 48) := by
  rw [addByteInt_decode s v t1 t2 l hskip hl hne (by rw [h48]; omega)]
  have hw : 48 ≤ (l ++ bits_from_byte v).length := by
    rw [List.length_append, bits_from_byte_length]
    omega
  obtain ⟨s1, info, hshape⟩ :=
    decodeWindow_shape { markTimes s t1 t2 with command_bits := some (l ++ bits_from_byte v) }
      (l ++ bits_from_byte v) t2 ((t2 - t1) / 7.5) h48 hn2 hw
  rw [hshape, finishWindow_rem s1 (l ++ bits_from_byte v) 48 _ _ t2 _ info hrem]
  exact ⟨_, _, rfl, rfl, rfl, rfl, rfl⟩

/-- State used in the C9 witness: 41 zero bits already buffered, so the
next byte completes a 48-bit frame with one leftover zero bit. -/
def c9state : SdioState :=
  { SdioState.init with command_bits := some (List.replicate 41 false) }

theorem c9_split_timing_witness :
    (c9state.cdm53_skip_next_bytes = 0 ∧
     c9state.command_bits = some (List.replicate 41 false) ∧
     (List.replicate 41 false : List Bool) ≠ [] ∧
     c9state.expected_response_length = 48 ∧
     c9state.expected_response ≠ some 2 ∧
     48 ≤ (List.replicate 41 false : List Bool).length + 8 ∧
     ((List.replicate 41 false ++ bits_from_byte 0).drop 48).all (fun x => x) = false) ∧
    ∃ s2 fr, addByteInt c9state 0 0 1 = some (s2, some fr) ∧
      s2.command_bits =
        some (((List.replicate 41 false ++ bits_from_byte 0).drop 48).dropWhile
          (fun x => x)) ∧
      s2.command_start =
        some (1 - (1 - 0) / 7.5 *
          (((((List.replicate 41 false ++ bits_from_byte 0).drop 48).dropWhile
              (fun x => x)).length : ℚ) - 0.5)) ∧
      fr.start_time = c9state.command_start ∧
      fr.end_time =
        1 - (1 - 0) / 7.5 *
          (((List.replicate 41 false ++ bits_from_byte 0).length : ℚ) - 48) :=
  ⟨⟨by decide, rfl, by decide, by decide, by decide, by decide, by decide⟩,
   c9_split_timing c9state 0 0 1 (List.replicate 41 false) (by decide) rfl (by decide)
     (by decide) (by decide) (by decide) (by decide)⟩

theorem finishWindow_pair (s : SdioState) (w : List Bool) (L : ℕ) (cs : Option ℚ)
    (ce t2 bl : ℚ) (info : String) :
    finishWindow s w L cs ce t2 bl info =
      ((finishWindow s w L cs ce t2 bl info).1, some ⟨cs, ce, info⟩) := rfl

theorem finishWindow_fst_expected_response (s : SdioState) (w : List Bool) (L : ℕ)
    (cs : Option ℚ) (ce t2 bl : ℚ) (info : String) :
    (finishWindow s w L cs ce t2 bl info).1.expected_response = s.expected_response := by
  unfold finishWindow
  dsimp only
  split <;> rfl

theorem finishWindow_fst_expected_response_length (s : SdioState) (w : List Bool)
    (L : ℕ) (cs : Option ℚ) (ce t2 bl : ℚ) (info : String) :
    (finishWindow s w L cs ce t2 bl info).1.expected_response_length =
      s.expected_response_length := by
  unfold finishWindow
  dsimp only
  split <;> rfl

/-- The command path of `decodeWindow`: the transmission bit routes the
48-bit frame to `interpret_command` and the next expected response is
looked up from the decoded command index. -/
theorem decodeWindow_command (s : SdioState) (w : List Bool) (t2 bl : ℚ)
    (h48 : s.expected_response_length = 48)
    (htr : (w.take 48).getD 1 false = true)
    (s1 : SdioState) (info : String)
    (hic : interpret_command s (w.take 48) = some (s1, info)) :
    decodeWindow s w t2 bl =
      some (finishWindow
        { s1 with
            expected_response :=
              get_command_response (value_from_bits (((w.take 48).drop 2).take 6))
            expected_response_length :=
              get_response_length
                (get_command_response (value_from_bits (((w.take 48).drop 2).take 6))) }
        w 48 s.command_start (t2 - bl * ((w.length : ℚ) - 48)) t2 bl info) := by
  unfold decodeWindow
  dsimp only
  rw [h48]
  simp only [Nat.cast_ofNat]
  rw [if_pos htr, hic]

/-- The response path of `decodeWindow` with no expected response kind: the
frame is decoded by the kind-1 interpreter and the expectation resets. -/
theorem decodeWindow_response1 (s : SdioState) (w : List Bool) (t2 bl : ℚ)
    (h48 : s.expected_response_length = 48)
    (hresp : s.expected_response = none)
    (htr : (w.take 48).getD 1 false = false)
    (info : String) (hi : interpret_response1 (w.take 48) = some info) :
    decodeWindow s w t2 bl =
      some (finishWindow
        { s with expected_response := none, expected_response_length := 48 }
        w 48 s.command_start (t2 - bl * ((w.length : ℚ) - 48)) t2 bl info) := by
  unfold decodeWindow
  dsimp only
  rw [h48]
  simp only [Nat.cast_ofNat]
  rw [if_neg (show ¬((w.take 48).getD 1 false = true) from by rw [htr]; simp),
    if_pos (Or.inr hresp), hi]

/-- `interpret_command` on a command index absent from `COMMAND_INFO` leaves
the state untouched and renders the bare `CMD<n>` form with the argument. -/
theorem interpret_command_unknown (s : SdioState) (bits : List Bool)
    (h48 : bits.length = 48)
    (hidx : COMMAND_INFO.lookup (value_from_bits ((bits.drop 2).take 6)) = none) :
    ∃ tail, interpret_command s bits =
        some (s, "CMD" ++ toString (value_from_bits ((bits.drop 2).take 6)) ++ tail) ∧
      (tail = ", arg:" ++ toString (value_from_bits ((bits.drop 8).take 32)) ∨
       tail = ", arg:" ++ toString (value_from_bits ((bits.drop 8).take 32)) ++
         ", ERROR") := by
  have h52 : value_from_bits ((bits.drop 2).take 6) ≠ 52 := by
    intro hh
    rw [hh] at hidx
    revert hidx
    decide
  have h53 : value_from_bits ((bits.drop 2).take 6) ≠ 53 := by
    intro hh
    rw [hh] at hidx
    revert hidx
    decide
  unfold interpret_command
  rw [if_pos h48]
  dsimp only
  rw [hidx]
  rw [if_neg (show ¬((none : Option (String × Option ℕ)).isSome = true) from by simp)]
  rw [if_neg h52, if_neg h53]
  dsimp only
  simp only [Bool.not_not]
  cases hb : (bits.getD 0 false || !bits.getD 1 false ||
      (value_from_bits ((bits.drop 47).take 1) == 0))
  · refine ⟨", arg:" ++ toString (value_from_bits ((bits.drop 8).take 32)), ?_,
      Or.inl rfl⟩
    simp [String.append_assoc]
  · refine ⟨", arg:" ++ toString (value_from_bits ((bits.drop 8).take 32)) ++ ", ERROR",
      ?_, Or.inr rfl⟩
    simp [String.append_assoc]

/-- C7: a command index absent from `COMMAND_INFO` yields name `"unknown"`
and response kind `None`; its rendered description uses the bare
`CMD<index>` form (with the argument, possibly flagged `", ERROR"`) and the
state is untouched; after `add_byte` decodes such a command the expected
response resets to kind `None` with length 48; and a following response
window is decoded by the kind-1 interpreter — an unknown command does not
desynchronize the decoder. -/
theorem c7_unknown_command (idx : ℕ) (hidx : COMMAND_INFO.lookup idx = none) :
    get_command_name idx = "unknown" ∧
    get_command_response idx = none ∧
    get_response_length (get_command_response idx) = 48 ∧
    (∀ (s : SdioState) (bits : List Bool), bits.length = 48 →
       value_from_bits ((bits.drop 2).take 6) = idx →
       ∃ tail, interpret_command s bits =
           some (s, "CMD" ++ toString idx ++ tail) ∧
         (tail = ", arg:" ++ toString (value_from_bits ((bits.drop 8).take 32)) ∨
          tail = ", arg:" ++ toString (value_from_bits ((bits.drop 8).take 32)) ++
            ", ERROR")) ∧
    (∀ (s : SdioState) (v : ℕ) (t1 t2 : ℚ) (l : List Bool),
       s.cdm53_skip_next_bytes = 0 → s.command_bits = some l → l ≠ [] →
       s.expected_response_length = 48 → 48 ≤ l.length + 8 →
       ((l ++ bits_from_byte v).take 48).getD 1 false = true →
       value_from_bits ((((l ++ bits_from_byte v).take 48).drop 2).take 6) = idx →
       ∃ s2 fr, addByteInt s v t1 t2 = some (s2, some fr) ∧
         s2.expected_response = none ∧ s2.expected_response_length = 48) ∧
    (∀ (s : SdioState) (v : ℕ) (t1 t2 : ℚ) (l : List Bool),
       s.cdm53_skip_next_bytes = 0 → s.command_bits = some l → l ≠ [] →
       s.expected_response_length = 48 → s.expected_response = none →
       48 ≤ l.length + 8 →
       ((l ++ bits_from_byte v).take 48).getD 1 false = false →
       ∃ s2 fr, addByteInt s v t1 t2 = some (s2, some fr) ∧
         interpret_response1 ((l ++ bits_from_byte v).take 48) = some fr.info) := by
  refine ⟨by simp [get_command_name, hidx], by simp [get_command_response, hidx],
    by simp [get_response_length, get_command_response, hidx], ?_, ?_, ?_⟩
  · intro s bits hlen hv
    obtain ⟨tail, h1, h2⟩ :=
      interpret_command_unknown s bits hlen (by rw [hv]; exact hidx)
    rw [hv] at h1
    exact ⟨tail, h1, h2⟩
  · intro s v t1 t2 l hskip hl hne h48 hcomp htr hvidx
    rw [addByteInt_decode s v t1 t2 l hskip hl hne (by rw [h48]; omega)]
    have htake : ((l ++ bits_from_byte v).take 48).length = 48 := by
      rw [List.length_take, List.length_append, bits_from_byte_length]
      omega
    obtain ⟨tail, hic, _⟩ := interpret_command_unknown
      { markTimes s t1 t2 with command_bits := some (l ++ bits_from_byte v) }
      ((l ++ bits_from_byte v).take 48) htake (by rw [hvidx]; exact hidx)
    rw [decodeWindow_command
      { markTimes s t1 t2 with command_bits := some (l ++ bits_from_byte v) }
      (l ++ bits_from_byte v) t2 ((t2 - t1) / 7.5) h48 htr _ _ hic]
    rw [finishWindow_pair]
    refine ⟨_, _, rfl, ?_, ?_⟩
    · rw [finishWindow_fst_expected_response]
      dsimp only
      rw [hvidx]
      simp [get_command_response, hidx]
    · rw [finishWindow_fst_expected_response_length]
      dsimp only
      rw [hvidx]
      simp [get_response_length, get_command_response, hidx]
  · intro s v t1 t2 l hskip hl hne h48 hresp hcomp htr
    rw [addByteInt_decode s v t1 t2 l hskip hl hne (by rw [h48]; omega)]
    have htake : ((l ++ bits_from_byte v).take 48).length = 48 := by
      rw [List.length_take, List.length_append, bits_from_byte_length]
      omega
    obtain ⟨info, hi⟩ :
        ∃ info, interpret_response1 ((l ++ bits_from_byte v).take 48) = some info := by
      unfold interpret_response1
      rw [if_pos htake]
      exact ⟨_, rfl⟩
    rw [decodeWindow_response1
      { markTimes s t1 t2 with command_bits := some (l ++ bits_from_byte v) }
      (l ++ bits_from_byte v) t2 ((t2 - t1) / 7.5) h48 hresp htr info hi]
    rw [finishWindow_pair]
    exact ⟨_, _, rfl, hi⟩

theorem c7_unknown_command_witness :
    COMMAND_INFO.lookup 33 = none ∧
    (get_command_name 33 = "unknown" ∧
     get_command_response 33 = none ∧
     get_response_length (get_command_response 33) = 48 ∧
     (∀ (s : SdioState) (bits : List Bool), bits.length = 48 →
        value_from_bits ((bits.drop 2).take 6) = 33 →
        ∃ tail, interpret_command s bits =
            some (s, "CMD" ++ toString 33 ++ tail) ∧
          (tail = ", arg:" ++ toString (value_from_bits ((bits.drop 8).take 32)) ∨
           tail = ", arg:" ++ toString (value_from_bits ((bits.drop 8).take 32)) ++
             ", ERROR")) ∧
     (∀ (s : SdioState) (v : ℕ) (t1 t2 : ℚ) (l : List Bool),
        s.cdm53_skip_next_bytes = 0 → s.command_bits = some l → l ≠ [] →
        s.expected_response_length = 48 → 48 ≤ l.length + 8 →
        ((l ++ bits_from_byte v).take 48).getD 1 false = true →
        value_from_bits ((((l ++ bits_from_byte v).take 48).drop 2).take 6) = 33 →
        ∃ s2 fr, addByteInt s v t1 t2 = some (s2, some fr) ∧
          s2.expected_response = none ∧ s2.expected_response_length = 48) ∧
     (∀ (s : SdioState) (v : ℕ) (t1 t2 : ℚ) (l : List Bool),
        s.cdm53_skip_next_bytes = 0 → s.command_bits = some l → l ≠ [] →
        s.expected_response_length = 48 → s.expected_response = none →
        48 ≤ l.length + 8 →
        ((l ++ bits_from_byte v).take 48).getD 1 false = false →
        ∃ s2 fr, addByteInt s v t1 t2 = some (s2, some fr) ∧
          interpret_response1 ((l ++ bits_from_byte v).take 48) = some fr.info)) :=
  ⟨by decide, c7_unknown_command 33 (by decide)⟩

/-- Feeding a concatenation composes the per-list runs. -/
theorem runBytes_append (s : SdioState) (a b : List (ℕ × ℚ × ℚ)) :
    runBytes s (a ++ b) =
      (runBytes s a).bind (fun p =>
        (runBytes p.1 b).map (fun q => (q.1, p.2 ++ q.2))) := by
  induction a generalizing s with
  | nil =>
    show runBytes s b = (some (s, [])).bind _
    cases h : runBytes s b with
    | none => simp [h]
    | some q => simp [h]
  | cons x rest ih =>
    obtain ⟨v, t1, t2⟩ := x
    rw [List.cons_append]
    cases h : addByteInt s v t1 t2 with
    | none => simp [runBytes, h]
    | some p =>
      obtain ⟨s1, f⟩ := p
      simp only [runBytes, h]
      rw [ih s1]
      cases h2 : runBytes s1 rest with
      | none => simp [h2]
      | some q =>
        obtain ⟨s2, outs⟩ := q
        cases h3 : runBytes s2 b with
        | none => simp [h2, h3]
        | some r =>
          obtain ⟨s3, outs2⟩ := r
          simp [h2, h3]

/-- Unfold one step of `runBytes` when the step result is known. -/
theorem runBytes_cons (s : SdioState) (v : ℕ) (t1 t2 : ℚ)
    (rest : List (ℕ × ℚ × ℚ)) (s1 : SdioState) (f : Option Frame)
    (h : addByteInt s v t1 t2 = some (s1, f)) :
    runBytes s ((v, t1, t2) :: rest) =
      (runBytes s1 rest).map (fun q => (q.1, f :: q.2)) := by
  simp only [runBytes, h]
  cases h2 : runBytes s1 rest with
  | none => simp
  | some q =>
    obtain ⟨a, b⟩ := q
    simp

/-- A non-token byte during the CMD53 token scan is silently consumed. -/
theorem cmd53_junk_step (s : SdioState) (v : ℕ) (t1 t2 : ℚ)
    (hskip : 0 < s.cdm53_skip_next_bytes) (htok : s.cmd53_start_token_received = 0)
    (hv : v ≠ 252) (hv2 : v ≠ 253) :
    addByteInt s v t1 t2 = some (s, none) := by
  unfold addByteInt
  rw [if_pos hskip]
  unfold cmd53Step
  rw [if_pos htok, if_neg (by simp [hv, hv2])]

/-- A run of non-token bytes during the token scan leaves the state fixed. -/
theorem cmd53_junk_run (s : SdioState) (j : List (ℕ × ℚ × ℚ))
    (hskip : 0 < s.cdm53_skip_next_bytes) (htok : s.cmd53_start_token_received = 0)
    (hj : ∀ y ∈ j, y.1 ≠ 252 ∧ y.1 ≠ 253) :
    runBytes s j = some (s, List.replicate j.length (none : Option Frame)) := by
  induction j with
  | nil => rfl
  | cons y rest ih =>
    obtain ⟨v, t1, t2⟩ := y
    have hy := hj (v, t1, t2) (List.mem_cons_self _ _)
    rw [runBytes_cons s v t1 t2 rest s none
      (cmd53_junk_step s v t1 t2 hskip htok hy.1 hy.2)]
    rw [ih (fun y hy2 => hj y (List.mem_cons_of_mem _ hy2))]
    simp [List.replicate_succ]

/-- The start token flips the token flag and records the data start time. -/
theorem cmd53_token_step (s : SdioState) (v : ℕ) (t1 t2 : ℚ)
    (hskip : 0 < s.cdm53_skip_next_bytes) (htok : s.cmd53_start_token_received = 0)
    (hv : v = 252 ∨ v = 253) :
    addByteInt s v t1 t2 =
      some ({ s with cmd53_start_token_received := 1, cmd53_data_start := some t2 },
        none) := by
  unfold addByteInt
  rw [if_pos hskip]
  unfold cmd53Step
  rw [if_pos htok, if_pos hv]

/-- After the token, the payload is skipped byte by byte down to a skip
counter of 1, and the last byte is handed to the final-byte branch. -/
theorem cmd53_payload_run (q : List (ℕ × ℚ × ℚ)) (x : ℕ × ℚ × ℚ) (s : SdioState)
    (htok : s.cmd53_start_token_received = 1)
    (hskip : s.cdm53_skip_next_bytes = q.length + 1) :
    runBytes s (q ++ [x]) =
      some ((cmd53Step { s with cdm53_skip_next_bytes := 1 } x.1 x.2.2).1,
        List.replicate q.length (none : Option Frame) ++
          [(cmd53Step { s with cdm53_skip_next_bytes := 1 } x.1 x.2.2).2]) := by
  induction q generalizing s with
  | nil =>
    obtain ⟨v, t1, t2⟩ := x
    have hs1 : ({ s with cdm53_skip_next_bytes := 1 } : SdioState) = s := by
      cases s
      simp_all
    have ha : addByteInt s v t1 t2 = some (cmd53Step s v t2) := by
      unfold addByteInt
      rw [if_pos (by omega)]
    rcases hcs : cmd53Step s v t2 with ⟨a, b⟩
    rw [hs1, hcs]
    rw [List.nil_append, runBytes_cons s v t1 t2 [] a b (by rw [ha, hcs])]
    rfl
  | cons y rest ih =>
    obtain ⟨v, t1, t2⟩ := y
    simp only [List.length_cons] at hskip
    have ha : addByteInt s v t1 t2 =
        some ({ s with cdm53_skip_next_bytes := s.cdm53_skip_next_bytes - 1 }, none) := by
      unfold addByteInt
      rw [if_pos (show 0 < s.cdm53_skip_next_bytes from by omega)]
      unfold cmd53Step
      rw [if_neg (show ¬(s.cmd53_start_token_received = 0) from by omega),
        if_pos (show 1 < s.cdm53_skip_next_bytes from by omega)]
    rw [List.cons_append, runBytes_cons s v t1 t2 (rest ++ [x]) _ none ha]
    rw [ih { s with cdm53_skip_next_bytes := s.cdm53_skip_next_bytes - 1 } htok
      (by dsimp only; omega)]
    simp [List.replicate_succ]

/-- One CMD53 block-sequence input: leading non-token bytes, the start-token
byte, and the payload bytes. -/
def BlockIn : Type := List (ℕ × ℚ × ℚ) × (ℕ × ℚ × ℚ) × List (ℕ × ℚ × ℚ)

/-- The transport bytes of one block sequence. -/
def blockBytes (blk : BlockIn) : List (ℕ × ℚ × ℚ) :=
  blk.1 ++ blk.2.1 :: blk.2.2

/-- The transport bytes of a list of block sequences. -/
def blocksBytes (blocks : List BlockIn) : List (ℕ × ℚ × ℚ) :=
  (blocks.map blockBytes).flatten

/-- A well-formed block sequence for payload length `B`: the lead-in bytes
are not start tokens, the token byte is `0xFC` or `0xFD`, and exactly `B`
payload bytes follow. -/
def goodBlock (B : ℕ) (blk : BlockIn) : Prop :=
  (∀ y ∈ blk.1, y.1 ≠ 252 ∧ y.1 ≠ 253) ∧
    (blk.2.1.1 = 252 ∨ blk.2.1.1 = 253) ∧ blk.2.2.length = B

instance (B : ℕ) (blk : BlockIn) : Decidable (goodBlock B blk) :=
  inferInstanceAs (Decidable (_ ∧ _ ∧ _))

/-- The per-byte output pattern the decoder must produce for a list of block
sequences: nothing until each block's final payload byte, which emits
`DATA BLOCK <n>` with a running counter starting at `r + 1`. -/
def expectedOuts (B : ℕ) : ℕ → List BlockIn → List (Option String)
  | _, [] => []
  | r, blk :: rest =>
    (List.replicate (blk.1.length + B) (none : Option String) ++
      [some ("DATA BLOCK " ++ toString (r + 1))]) ++ expectedOuts B (r + 1) rest

/-- Running one full block sequence: junk is absorbed, the token is marked,
the payload is skipped and the final byte goes to `cmd53Step` with the skip
counter at 1. -/
theorem cmd53_block_run (s : SdioState) (j : List (ℕ × ℚ × ℚ)) (tv : ℕ)
    (ta tb : ℚ) (q : List (ℕ × ℚ × ℚ)) (x : ℕ × ℚ × ℚ)
    (hskip : s.cdm53_skip_next_bytes = q.length + 1)
    (htok : s.cmd53_start_token_received = 0)
    (hj : ∀ y ∈ j, y.1 ≠ 252 ∧ y.1 ≠ 253)
    (htv : tv = 252 ∨ tv = 253) :
    runBytes s (j ++ (tv, ta, tb) :: (q ++ [x])) =
      some ((cmd53Step
          { s with
              cmd53_start_token_received := 1
              cmd53_data_start := some tb
              cdm53_skip_next_bytes := 1 } x.1 x.2.2).1,
        List.replicate j.length (none : Option Frame) ++
          (none :: (List.replicate q.length (none : Option Frame) ++
            [(cmd53Step
              { s with
                  cmd53_start_token_received := 1
                  cmd53_data_start := some tb
                  cdm53_skip_next_bytes := 1 } x.1 x.2.2).2]))) := by
  rw [runBytes_append s j ((tv, ta, tb) :: (q ++ [x]))]
  rw [cmd53_junk_run s j (by omega) htok hj]
  dsimp only [Option.bind]
  rw [runBytes_cons s tv ta tb (q ++ [x]) _ none
    (cmd53_token_step s tv ta tb (by omega) htok htv)]
  rw [cmd53_payload_run q x
    { s with cmd53_start_token_received := 1, cmd53_data_start := some tb } rfl
    (by dsimp only; omega)]
  simp

/-- Running a nonempty list of well-formed block sequences from the state a
block-mode CMD53 command sets up: every block emits its `DATA BLOCK <n>`
frame on its final byte and the transfer state ends cleared. -/
theorem cmd53_blocks_run (blocks : List BlockIn) (s : SdioState)
    (hne : blocks ≠ [])
    (hskip : s.cdm53_skip_next_bytes = s.cdm53_block_size_length + 2)
    (htok : s.cmd53_start_token_received = 0)
    (hpend : s.cmd53_blocks_pending = (blocks.length : ℤ))
    (hgood : ∀ blk ∈ blocks, goodBlock (s.cdm53_block_size_length + 2) blk) :
    ∃ s2 outs, runBytes s (blocksBytes blocks) = some (s2, outs) ∧
      outs.map (Option.map Frame.info) =
        expectedOuts (s.cdm53_block_size_length + 2) s.cmd53_blocks_received blocks ∧
      s2.cdm53_skip_next_bytes = 0 ∧ s2.cmd53_start_token_received = 0 ∧
      s2.cmd53_blocks_pending = 0 ∧
      s2.command_bits = s.command_bits ∧
      s2.expected_response = s.expected_response ∧
      s2.expected_response_length = s.expected_response_length := by
  induction blocks generalizing s with
  | nil => exact absurd rfl hne
  | cons blk rest ih =>
    obtain ⟨j, tk, p⟩ := blk
    obtain ⟨tv, ta, tb⟩ := tk
    have hgb := hgood _ (List.mem_cons_self _ _)
    unfold goodBlock at hgb
    obtain ⟨hj, htv, hplen⟩ := hgb
    dsimp only at hj htv hplen
    have hpne : p ≠ [] := by
      intro h
      rw [h] at hplen
      simp at hplen
    rcases List.eq_nil_or_concat p with h | ⟨q, x, rfl⟩
    · exact absurd h hpne
    simp only [List.concat_eq_append] at hpend hgood hplen hpne ⊢
    have hq : q.length + 1 = s.cdm53_block_size_length + 2 := by
      simpa [List.length_append] using hplen
    have hbb : blocksBytes ((j, (tv, ta, tb), q ++ [x]) :: rest) =
        (j ++ (tv, ta, tb) :: (q ++ [x])) ++ blocksBytes rest := by
      simp [blocksBytes, blockBytes]
    rw [hbb, runBytes_append]
    rw [cmd53_block_run s j tv ta tb q x (by omega) htok hj htv]
    simp only [List.length_cons] at hpend
    by_cases hrest : rest = []
    · subst hrest
      have hcs : cmd53Step
          { s with
              cmd53_start_token_received := 1
              cmd53_data_start := some tb
              cdm53_skip_next_bytes := 1 } x.1 x.2.2 =
          ({ s with
              cmd53_data_start := some tb
              cdm53_skip_next_bytes := 0
              cmd53_start_token_received := 0
              cmd53_blocks_pending := s.cmd53_blocks_pending - 1
              cmd53_blocks_received := s.cmd53_blocks_received + 1 },
           some ⟨some tb, x.2.2,
             "DATA BLOCK " ++ toString (s.cmd53_blocks_received + 1)⟩) := by
        unfold cmd53Step
        dsimp only
        rw [if_neg (show ¬((1 : ℕ) = 0) from by decide),
          if_neg (show ¬(1 < 1) from by decide),
          if_pos (show s.cmd53_blocks_pending - 1 = 0 from by
            simp only [List.length_nil] at hpend
            omega)]
      rw [hcs]
      dsimp only [blocksBytes, List.map_nil, List.flatten_nil, Option.bind, runBytes,
        Option.map]
      refine ⟨_, _, rfl, ?_, rfl, rfl, ?_, rfl, rfl, rfl⟩
      · rw [expectedOuts, expectedOuts]
        simp only [List.map_append, List.map_replicate, List.map_cons, List.map_nil,
          Option.map_none', Option.map_some', List.append_nil]
        rw [← hq]
        simp [List.replicate_add, List.replicate_succ, List.append_assoc]
      · dsimp only
        simp only [List.length_nil] at hpend
        omega
    · have hcs : cmd53Step
          { s with
              cmd53_start_token_received := 1
              cmd53_data_start := some tb
              cdm53_skip_next_bytes := 1 } x.1 x.2.2 =
          ({ s with
              cmd53_data_start := some tb
              cdm53_skip_next_bytes := s.cdm53_block_size_length + 2
              cmd53_start_token_received := 0
              cmd53_blocks_pending := s.cmd53_blocks_pending - 1
              cmd53_blocks_received := s.cmd53_blocks_received + 1 },
           some ⟨some tb, x.2.2,
             "DATA BLOCK " ++ toString (s.cmd53_blocks_received + 1)⟩) := by
        have hrl : 0 < rest.length := List.length_pos.mpr hrest
        unfold cmd53Step
        dsimp only
        rw [if_neg (show ¬((1 : ℕ) = 0) from by decide),
          if_neg (show ¬(1 < 1) from by decide),
          if_neg (show ¬(s.cmd53_blocks_pending - 1 = 0) from by
            push_cast at hpend
            omega)]
      rw [hcs]
      obtain ⟨s2, outs2, hrun2, hmap2, hf1, hf2, hf3, hf4, hf5, hf6⟩ :=
        ih { s with
              cmd53_data_start := some tb
              cdm53_skip_next_bytes := s.cdm53_block_size_length + 2
              cmd53_start_token_received := 0
              cmd53_blocks_pending := s.cmd53_blocks_pending - 1
              cmd53_blocks_received := s.cmd53_blocks_received + 1 }
          hrest rfl rfl
          (by
            dsimp only
            push_cast at hpend ⊢
            omega)
          (fun b hb => hgood b (List.mem_cons_of_mem _ hb))
      dsimp only [Option.bind]
      rw [hrun2]
      dsimp only [Option.map]
      refine ⟨_, _, rfl, ?_, hf1, hf2, hf3, hf4, hf5, hf6⟩
      rw [expectedOuts]
      simp only [List.map_append, List.map_replicate, List.map_cons, List.map_nil,
        Option.map_none', Option.map_some']
      rw [hmap2]
      rw [← hq]
      simp [List.replicate_add, List.replicate_succ, List.append_assoc]

/-- Decoding a block-mode CMD53 command frame arms the CMD53 transfer: the
skip counter becomes `block_size + 2`, the pending counter becomes the
9-bit count field, and the received counter resets. -/
theorem interpret_command_blockmode (s : SdioState) (bits : List Bool)
    (h48 : bits.length = 48)
    (hidx : value_from_bits ((bits.drop 2).take 6) = 53)
    (hbm : bits.getD 12 false = true) :
    ∃ info, interpret_command s bits =
      some ({ s with
          cdm53_skip_next_bytes := s.cdm53_block_size_length + 2
          cmd53_blocks_pending := (value_from_bits ((bits.drop 31).take 9) : ℤ)
          cmd53_blocks_received := 0 }, info) := by
  unfold interpret_command
  rw [if_pos h48]
  dsimp only
  rw [hidx]
  rw [if_pos (show (List.lookup 53 COMMAND_INFO).isSome = true from by decide)]
  rw [if_neg (show ¬((53 : ℕ) = 52) from by decide)]
  rw [if_pos (show (53 : ℕ) = 53 from rfl)]
  rw [if_pos hbm]
  exact ⟨_, rfl⟩

/-- C1: after a CMD53 command frame with the block-mode bit set and 9-bit
count `N > 0` is decoded, feeding exactly `N` block sequences (each a run of
non-token bytes, a `0xFC`/`0xFD` start token and `block_size + 2` payload
bytes) returns exactly `N` frames labeled `DATA BLOCK 1` through
`DATA BLOCK N`, each on the final byte of its block; the transfer state is
then cleared and a following `0xFF` byte with an empty bit window is
absorbed as idle (`None`, state unchanged). -/
theorem c1_cmd53_block_mode_transfer (s0 : SdioState) (bits : List Bool)
    (s : SdioState) (info : String) (N : ℕ) (blocks : List BlockIn)
    (hb : bits.length = 48)
    (hidx : value_from_bits ((bits.drop 2).take 6) = 53)
    (hbm : bits.getD 12 false = true)
    (hcnt : value_from_bits ((bits.drop 31).take 9) = N)
    (hN : 0 < N)
    (hdec : interpret_command s0 bits = some (s, info))
    (htok : s0.cmd53_start_token_received = 0)
    (hwin : truthy s0.command_bits = false)
    (hlen : blocks.length = N)
    (hgood : ∀ blk ∈ blocks, goodBlock (s0.cdm53_block_size_length + 2) blk) :
    ∃ s2 outs, runBytes s (blocksBytes blocks) = some (s2, outs) ∧
      outs.map (Option.map Frame.info) =
        expectedOuts (s0.cdm53_block_size_length + 2) 0 blocks ∧
      s2.cdm53_skip_next_bytes = 0 ∧ s2.cmd53_start_token_received = 0 ∧
      (∀ t1 t2 : ℚ, addByteInt s2 255 t1 t2 = some (s2, none)) := by
  obtain ⟨info0, hdec0⟩ := interpret_command_blockmode s0 bits hb hidx hbm
  rw [hdec0] at hdec
  simp only [Option.some.injEq, Prod.mk.injEq] at hdec
  obtain ⟨hseq, hieq⟩ := hdec
  obtain ⟨s2, outs, hrun, hmap, hf1, hf2, hf3, hf4, hf5, hf6⟩ :=
    cmd53_blocks_run blocks
      { s0 with
          cdm53_skip_next_bytes := s0.cdm53_block_size_length + 2
          cmd53_blocks_pending := (value_from_bits ((bits.drop 31).take 9) : ℤ)
          cmd53_blocks_received := 0 }
      (by
        intro h
        rw [h] at hlen
        simp at hlen
        omega)
      rfl htok
      (by
        dsimp only
        rw [hcnt, hlen])
      hgood
  rw [hseq] at hrun
  refine ⟨s2, outs, hrun, hmap, hf1, hf2, ?_⟩
  intro t1 t2
  unfold addByteInt
  rw [hf1, if_neg (lt_irrefl 0)]
  rw [if_pos (show (255 : ℕ) = 255 ∧ truthy s2.command_bits = false from
    ⟨rfl, by rw [hf4]; exact hwin⟩)]

/-- A block-mode CMD53 write frame with count 1 (index 53, block_mode set). -/
def c1bits : List Bool := ([0x75, 0x08, 0, 0, 0x01, 0x01].map bits_from_byte).flatten

/-- The state the CMD53 frame `c1bits` sets up from a fresh decoder. -/
def c1state : SdioState :=
  { SdioState.init with
      cdm53_skip_next_bytes := 258
      cmd53_blocks_pending := 1
      cmd53_blocks_received := 0 }

/-- One block sequence: no junk, token `0xFC`, 258 payload bytes. -/
def c1blocks : List BlockIn :=
  [([], (252, 0, 1), List.replicate 258 ((0 : ℕ), (0 : ℚ), (1 : ℚ)))]

set_option maxRecDepth 16000 in
theorem c1_cmd53_block_mode_transfer_witness :
    (c1bits.length = 48 ∧
     value_from_bits ((c1bits.drop 2).take 6) = 53 ∧
     c1bits.getD 12 false = true ∧
     value_from_bits ((c1bits.drop 31).take 9) = 1 ∧
     (0 : ℕ) < 1 ∧
     interpret_command SdioState.init c1bits =
       some (c1state,
         "IO_RW_EXTENDED (CMD53): Read Func0, Fix Address 0x0, BlockMode: 1 blocks") ∧
     SdioState.init.cmd53_start_token_received = 0 ∧
     truthy SdioState.init.command_bits = false ∧
     c1blocks.length = 1 ∧
     (∀ blk ∈ c1blocks, goodBlock (SdioState.init.cdm53_block_size_length + 2) blk)) ∧
    ∃ s2 outs, runBytes c1state (blocksBytes c1blocks) = some (s2, outs) ∧
      outs.map (Option.map Frame.info) =
        expectedOuts (SdioState.init.cdm53_block_size_length + 2) 0 c1blocks ∧
      s2.cdm53_skip_next_bytes = 0 ∧ s2.cmd53_start_token_received = 0 ∧
      (∀ t1 t2 : ℚ, addByteInt s2 255 t1 t2 = some (s2, none)) :=
  ⟨⟨by decide, by decide, by decide, by decide, by decide, by decide, by decide,
    by decide, by decide, by decide⟩,
   c1_cmd53_block_mode_transfer SdioState.init c1bits c1state
     "IO_RW_EXTENDED (CMD53): Read Func0, Fix Address 0x0, BlockMode: 1 blocks"
     1 c1blocks (by decide) (by decide) (by decide) (by decide) (by decide)
     (by decide) (by decide) (by decide) (by decide) (by decide)⟩

/-- A 48-bit command frame with the start bit erroneously set. -/
def c2cmdbits : List Bool := [true, true] ++ List.replicate 45 false ++ [true]

theorem c2_bad_framing_error_witness :
    (c2cmdbits.length = 48 ∧ c2cmdbits.getD 0 false = true ∧
      ∃ s2 info, interpret_command SdioState.init c2cmdbits = some (s2, info) ∧
        containsStr "ERROR" info) ∧
    (c2bits.length = 48 ∧ c2bits.length = 48 ∧
      (c2bits.drop 8).take 32 = (c2bits.drop 8).take 32 ∧
      interpret_response1 c2bits = interpret_response1 c2bits) :=
  ⟨⟨by decide, by decide,
    c2_bad_framing_error.1 SdioState.init c2cmdbits (by decide) (by decide)⟩,
   ⟨by decide, by decide, rfl,
    c2_bad_framing_error.2 c2bits c2bits (by decide) (by decide) rfl⟩⟩
